import Mathlib

/-!
Shallow embedding of the tweet-scraper service (`src/main.py`).

The store is modelled as explicit state: the three Mongo collections
(`rawdata`, `twitter`, `twitter-errors`) become lists, an inserted document
becomes an association list of string keys to BSON-like values, and the
wall clock becomes a counter ticked at every write.  The Nitter fetch
collaborator is an opaque function supplied through an environment.
-/

/-- A `rawdata` document: `{_id, message}`. -/
structure RawRecord where
  _id : Nat
  message : String
deriving DecidableEq

/-- Values stored in outcome documents: ObjectIds, `datetime.datetime.now()`
values, `time.time()` values and strings (the scraped tweet is kept as an
opaque string). -/
inductive BsonVal where
  | oid (i : Nat)
  | dtime (t : Nat)
  | fnum (t : Nat)
  | str (s : String)
deriving DecidableEq

/-- A document inserted with `insert_one`: Python dict with string keys. -/
abbrev Doc := List (String × BsonVal)

/-- The document store: the read-only `rawdata` collection, the two outcome
collections `twitter` and `twitter-errors`, and a clock supplying the
`created_time` / `timestamp` values captured at write time. -/
structure DB where
  rawdata : List RawRecord
  twitter : List Doc
  twitterErrors : List Doc
  clock : Nat
deriving DecidableEq

/-- Result of one call to `nitter_scraper.get_tweet_by_id`: either the tweet
content is returned, or an `AttributeError` is raised, or any other
exception is raised. -/
inductive FetchResult where
  | ok (content : String)
  | attrError (msg : String)
  | otherError (msg : String)
deriving DecidableEq

/-- The environment: the external fetch collaborator, keyed by the
`(user_id, tweet_id)` pair extracted from the message. -/
structure Env where
  fetch : List Char → List Char → FetchResult

/-- A per-record result dict appended to `results` (and returned by
`scrape_and_store_tweet`): `status` and `id` always present,
`error_message` present on worker errors, `message` present on skips. -/
structure Detail where
  status : String
  id : Nat
  error_message : Option String := none
  message : Option String := none
deriving DecidableEq

/-- The JSON summary returned by the `/process-tweets` endpoint. -/
structure Summary where
  message : String
  processed_count : Nat
  error_count : Nat
  skipped_count : Nat
  total_attempted_or_skipped : Nat
  details : List Detail
deriving DecidableEq

/-! ### The extraction regex

`pattern = re.compile(r"twitter\.com/([^/]+)/status/(\d+)")` and
`pattern.search(text)`.  Since `[^/]+` cannot cross a `/` and `(\d+)` is
final, the leftmost search of the regex engine with greedy groups is equivalent
to: at each start position try to consume the literal `twitter.com/`, the
maximal nonempty run of non-slash characters, the literal `/status/`, and a
maximal nonempty run of digits. -/

/-- Consume an exact literal at the head of the input, returning the rest. -/
def dropLit : List Char → List Char → Option (List Char)
  | [], rest => some rest
  | _ :: _, [] => none
  | p :: ps, c :: cs => if p = c then dropLit ps cs else none

/-- The literal part of the pattern before the handle group. -/
def domLit : List Char := ("twitter.com/").data

/-- The literal part of the pattern between the two groups. -/
def statusLit : List Char := ("/status/").data

/-- Character class `[^/]`. -/
def notSlash (c : Char) : Bool := decide (c ≠ '/')

/-- Attempt to match the compiled pattern at the current position. -/
def matchAt (cs : List Char) : Option (List Char × List Char) :=
  match dropLit domLit cs with
  | none => none
  | some r1 =>
    if r1.takeWhile notSlash = [] then none
    else
      match dropLit statusLit (r1.dropWhile notSlash) with
      | none => none
      | some r3 =>
        if r3.takeWhile Char.isDigit = [] then none
        else some (r1.takeWhile notSlash, r3.takeWhile Char.isDigit)

/-- `pattern.search`: try each start position from the left, returning the
groups `(user_id, tweet_id)` of the first match. -/
def patternSearch : List Char → Option (List Char × List Char)
  | [] => none
  | c :: cs =>
    match matchAt (c :: cs) with
    | some r => some r
    | none => patternSearch cs

/-! ### Outcome documents and store operations -/

/-- The dict inserted into `twitter-errors`. -/
def errorDoc (sid : Nat) (t : Nat) (msg : String) : Doc :=
  [("source_id", BsonVal.oid sid), ("created_time", BsonVal.dtime t),
   ("timestamp", BsonVal.fnum t), ("error", BsonVal.str msg)]

/-- The dict inserted into `twitter` on success. -/
def successDoc (sid : Nat) (t : Nat) (tweet : String) : Doc :=
  [("source_id", BsonVal.oid sid), ("created_time", BsonVal.dtime t),
   ("timestamp", BsonVal.fnum t), ("tweet", BsonVal.str tweet)]

/-- `db_collection_twitter_errors.insert_one(...)` with the clock read at
write time. -/
def insertTwitterError (db : DB) (sid : Nat) (msg : String) : DB :=
  { db with twitterErrors := db.twitterErrors ++ [errorDoc sid db.clock msg],
            clock := db.clock + 1 }

/-- `db_collection_twitter.insert_one(...)` with the clock read at write
time. -/
def insertTwitter (db : DB) (sid : Nat) (tweet : String) : DB :=
  { db with twitter := db.twitter ++ [successDoc sid db.clock tweet],
            clock := db.clock + 1 }

/-- The filter on the field "source_id" applied to one document. -/
def docMatches (d : Doc) (sid : Nat) : Bool :=
  decide (List.lookup ("source_id") d = some (BsonVal.oid sid))

/-- A find_one query on the field "source_id". -/
def findOneBySourceId (coll : List Doc) (sid : Nat) : Option Doc :=
  coll.find? (fun d => docMatches d sid)

/-- Whether a collection holds some outcome for `sid`. -/
def hasSid (coll : List Doc) (sid : Nat) : Bool :=
  (findOneBySourceId coll sid).isSome

/-! ### The Fetch-and-Record Worker (`scrape_and_store_tweet`) -/

/-- `scrape_and_store_tweet(response_id, tweet_url)`: extract the post
reference, call the fetch collaborator, and append exactly one outcome
document; returns the per-record result dict together with the new store
state. -/
def scrape_and_store_tweet (env : Env) (db : DB) (response_id : Nat)
    (tweet_url : String) : Detail × DB :=
  match patternSearch tweet_url.data with
  | none =>
    ({ status := "error", id := response_id,
       error_message := some ("Invalid tweet URL format: " ++ tweet_url) },
     insertTwitterError db response_id ("Invalid tweet URL format: " ++ tweet_url))
  | some (user_id, tweet_id) =>
    match env.fetch user_id tweet_id with
    | FetchResult.ok tweet =>
      ({ status := "success", id := response_id },
       insertTwitter db response_id tweet)
    | FetchResult.attrError e =>
      ({ status := "error", id := response_id,
         error_message := some ("Nitter scraping failed (AttributeError): " ++ e) },
       insertTwitterError db response_id ("Nitter scraping failed (AttributeError): " ++ e))
    | FetchResult.otherError e =>
      ({ status := "error", id := response_id,
         error_message := some ("An unexpected error occurred: " ++ e) },
       insertTwitterError db response_id ("An unexpected error occurred: " ++ e))

/-! ### The pre-filter

The find call on the rawdata collection filters the message field with
the case-insensitive regex "twitter.com".  Note the unescaped dot: the eighth
character is the metacharacter `.`, which matches any character except a
newline, case-insensitively. -/

/-- Does the regex `twitter.com` (with `.` a wildcard), case-insensitive,
match at the current position? -/
def preMatchAt (cs : List Char) : Bool :=
  match cs with
  | c0 :: c1 :: c2 :: c3 :: c4 :: c5 :: c6 :: c7 :: c8 :: c9 :: c10 :: _ =>
    decide (c0.toLower = 't' ∧ c1.toLower = 'w' ∧ c2.toLower = 'i' ∧
      c3.toLower = 't' ∧ c4.toLower = 't' ∧ c5.toLower = 'e' ∧
      c6.toLower = 'r' ∧ c7 ≠ '\n' ∧ c8.toLower = 'c' ∧ c9.toLower = 'o' ∧
      c10.toLower = 'm')
  | _ => false

/-- Unanchored search for the pre-filter regex. -/
def preFilter : List Char → Bool
  | [] => false
  | c :: cs => preMatchAt (c :: cs) || preFilter cs

/-! ### The Batch Driver (`process_tweets_endpoint`) -/

/-- The loop state of the `for response in responses_cursor` loop. -/
structure LoopState where
  db : DB
  processed_count : Nat
  error_count : Nat
  skipped_count : Nat
  results : List Detail
deriving DecidableEq

/-- One iteration of the batch loop: dedup-classify the record against the
two outcome collections, and either skip it or run the worker. -/
def stepRecord (env : Env) (s : LoopState) (response : RawRecord) : LoopState :=
  match findOneBySourceId s.db.twitter response._id with
  | some _ =>
    { s with skipped_count := s.skipped_count + 1,
             results := s.results ++
               [{ status := "already_processed", id := response._id,
                  message := some ("Tweet already successfully processed.") }] }
  | none =>
    match findOneBySourceId s.db.twitterErrors response._id with
    | some _ =>
      { s with skipped_count := s.skipped_count + 1,
               results := s.results ++
                 [{ status := "already_in_error", id := response._id,
                    message := some ("Tweet previously failed to process.") }] }
    | none =>
      { db := (scrape_and_store_tweet env s.db response._id response.message).2,
        processed_count :=
          if (scrape_and_store_tweet env s.db response._id response.message).1.status = "success"
          then s.processed_count + 1 else s.processed_count,
        error_count :=
          if (scrape_and_store_tweet env s.db response._id response.message).1.status = "success"
          then s.error_count else s.error_count + 1,
        skipped_count := s.skipped_count,
        results := s.results ++
          [(scrape_and_store_tweet env s.db response._id response.message).1] }

/-- The loop state at entry of the batch loop. -/
def initLoopState (db : DB) : LoopState :=
  { db := db, processed_count := 0, error_count := 0, skipped_count := 0,
    results := [] }

/-- The `/process-tweets` endpoint: iterate over the pre-filtered `rawdata`
cursor and build the summary. -/
def process_tweets_endpoint (env : Env) (db : DB) : Summary × DB :=
  let finalS :=
    (db.rawdata.filter fun r => preFilter r.message.data).foldl
      (stepRecord env) (initLoopState db)
  ({ message := "Tweet processing completed.",
     processed_count := finalS.processed_count,
     error_count := finalS.error_count,
     skipped_count := finalS.skipped_count,
     total_attempted_or_skipped :=
       finalS.processed_count + finalS.error_count + finalS.skipped_count,
     details := finalS.results }, finalS.db)

/-- The store-level exclusivity invariant: no `source_id` has documents in
both outcome collections. -/
def Exclusive (db : DB) : Prop :=
  ∀ sid : Nat, ¬(hasSid db.twitter sid = true ∧ hasSid db.twitterErrors sid = true)

/-- A handle group value: nonempty and slash-free. -/
def GoodHandle (h : List Char) : Prop := h ≠ [] ∧ ∀ c ∈ h, c ≠ '/'

/-- A tweet-id group value: nonempty and digits only. -/
def GoodId (d : List Char) : Prop := d ≠ [] ∧ ∀ c ∈ d, c.isDigit = true

/-- The spec-side description of a raw regex match: at offset `i` the text
decomposes into a prefix of length `i`, the literal pattern pieces around
the two group values, and an arbitrary remainder. -/
def SpecMatchAt (cs : List Char) (i : Nat) (h d : List Char) : Prop :=
  GoodHandle h ∧ GoodId d ∧
  ∃ pre post, pre.length = i ∧
    cs = pre ++ (domLit ++ (h ++ (statusLit ++ (d ++ post))))

/-- Spec-side predicate: a per-record result entry that reports a skip. -/
def skipStatus (dtl : Detail) : Bool :=
  decide (dtl.status = "already_processed") || decide (dtl.status = "already_in_error")

/-- The loop state after the batch loop of one endpoint invocation. -/
def finalState (env : Env) (db : DB) : LoopState :=
  (db.rawdata.filter fun r => preFilter r.message.data).foldl
    (stepRecord env) (initLoopState db)

/-- Spec-side predicate, in the words of the spec: does the eleven-character
window at this position spell the literal "twitter.com", ignoring case? -/
def litTwitterAt (cs : List Char) : Bool :=
  match cs with
  | c0 :: c1 :: c2 :: c3 :: c4 :: c5 :: c6 :: c7 :: c8 :: c9 :: c10 :: _ =>
    decide (c0.toLower = 't' ∧ c1.toLower = 'w' ∧ c2.toLower = 'i' ∧
      c3.toLower = 't' ∧ c4.toLower = 't' ∧ c5.toLower = 'e' ∧
      c6.toLower = 'r' ∧ c7 = '.' ∧ c8.toLower = 'c' ∧ c9.toLower = 'o' ∧
      c10.toLower = 'm')
  | _ => false

/-- Spec-side predicate, in the words of the spec: the message contains the
literal string "twitter.com" as a case-insensitive substring. -/
def containsTwitterComCI : List Char → Bool
  | [] => false
  | c :: cs => litTwitterAt (c :: cs) || containsTwitterComCI cs

/-! ### Facts about the extraction regex -/

lemma dropLit_append (l r : List Char) : dropLit l (l ++ r) = some r := by
  induction l with
  | nil => rfl
  | cons c cs ih => simpa [dropLit] using ih

lemma dropLit_eq_some : ∀ {l cs r : List Char}, dropLit l cs = some r → cs = l ++ r := by
  intro l
  induction l with
  | nil =>
    intro cs r h
    simp only [dropLit, Option.some.injEq] at h
    simp [h]
  | cons p ps ih =>
    intro cs r h
    cases cs with
    | nil => simp [dropLit] at h
    | cons c cs' =>
      simp only [dropLit] at h
      split at h
      · next hpc => rw [List.cons_append, ← hpc, ih h]
      · exact absurd h (by simp)

lemma takeWhile_append_of_all {α : Type} {p : α → Bool} {l : List α} (r : List α)
    (h : ∀ c ∈ l, p c = true) :
    (l ++ r).takeWhile p = l ++ r.takeWhile p := by
  induction l with
  | nil => rfl
  | cons c cs ih =>
    have hc : p c = true := h c (by simp)
    simp only [List.cons_append, List.takeWhile_cons_of_pos hc]
    rw [ih (fun x hx => h x (by simp [hx]))]

lemma dropWhile_append_of_all {α : Type} {p : α → Bool} {l : List α} (r : List α)
    (h : ∀ c ∈ l, p c = true) :
    (l ++ r).dropWhile p = r.dropWhile p := by
  induction l with
  | nil => rfl
  | cons c cs ih =>
    have hc : p c = true := h c (by simp)
    simp only [List.cons_append, List.dropWhile_cons_of_pos hc]
    exact ih (fun x hx => h x (by simp [hx]))

lemma matchAt_sound {cs h d : List Char} (H : matchAt cs = some (h, d)) :
    GoodHandle h ∧ GoodId d ∧
    ∃ post, cs = domLit ++ (h ++ (statusLit ++ (d ++ post))) := by
  unfold matchAt at H
  split at H
  · exact absurd H (by simp)
  next r1 h1 =>
    split at H
    · exact absurd H (by simp)
    next h2 =>
      split at H
      · exact absurd H (by simp)
      next r3 h3 =>
        split at H
        · exact absurd H (by simp)
        next h4 =>
          simp only [Option.some.injEq, Prod.mk.injEq] at H
          obtain ⟨Hh, Hd⟩ := H
          subst Hh; subst Hd
          refine ⟨⟨h2, ?_⟩, ⟨h4, fun c hc => List.mem_takeWhile_imp hc⟩,
            r3.dropWhile Char.isDigit, ?_⟩
          · intro c hc
            have hmem := List.mem_takeWhile_imp hc
            simpa [notSlash] using hmem
          · rw [dropLit_eq_some h1]
            congr 1
            conv_lhs => rw [← List.takeWhile_append_dropWhile notSlash r1]
            congr 1
            rw [dropLit_eq_some h3]
            congr 1
            conv_lhs => rw [← List.takeWhile_append_dropWhile Char.isDigit r3]

lemma matchAt_complete {h d : List Char} (post : List Char)
    (Hh : GoodHandle h) (Hd : GoodId d) :
    matchAt (domLit ++ (h ++ (statusLit ++ (d ++ post)))) =
      some (h, d ++ post.takeWhile Char.isDigit) := by
  have hstat : statusLit = '/' :: ("status/").data := rfl
  have hallh : ∀ c ∈ h, notSlash c = true := fun c hc => by
    simp [notSlash, Hh.2 c hc]
  have hslash : ¬(notSlash '/' = true) := by simp [notSlash]
  have htw : (h ++ (statusLit ++ (d ++ post))).takeWhile notSlash = h := by
    rw [takeWhile_append_of_all _ hallh, hstat, List.cons_append,
      List.takeWhile_cons_of_neg hslash, List.append_nil]
  have hdw : (h ++ (statusLit ++ (d ++ post))).dropWhile notSlash
      = statusLit ++ (d ++ post) := by
    rw [dropWhile_append_of_all _ hallh, hstat, List.cons_append,
      List.dropWhile_cons_of_neg hslash]
  unfold matchAt
  simp only [dropLit_append]
  rw [htw, hdw, if_neg Hh.1]
  simp only [dropLit_append]
  rw [takeWhile_append_of_all _ Hd.2]
  rw [if_neg (fun hnil => Hd.1 (List.append_eq_nil.mp hnil).1)]

lemma search_sound : ∀ {cs h d : List Char}, patternSearch cs = some (h, d) →
    ∃ i, matchAt (cs.drop i) = some (h, d) ∧
      ∀ j, j < i → matchAt (cs.drop j) = none := by
  intro cs
  induction cs with
  | nil => intro h d H; simp [patternSearch] at H
  | cons c tl ih =>
    intro h d H
    rw [patternSearch] at H
    cases hm : matchAt (c :: tl) with
    | some r =>
      rw [hm] at H
      simp only [Option.some.injEq] at H
      exact ⟨0, by simpa [H] using hm, fun j hj => absurd hj (by omega)⟩
    | none =>
      rw [hm] at H
      obtain ⟨i, hi, hmin⟩ := ih H
      refine ⟨i + 1, by simpa [List.drop_succ_cons] using hi, fun j hj => ?_⟩
      cases j with
      | zero => simpa using hm
      | succ j' => simpa [List.drop_succ_cons] using hmin j' (by omega)

lemma search_none : ∀ {cs : List Char}, patternSearch cs = none →
    ∀ i, matchAt (cs.drop i) = none := by
  intro cs
  induction cs with
  | nil => intro _ i; rw [List.drop_nil]; decide
  | cons c tl ih =>
    intro H i
    rw [patternSearch] at H
    cases hm : matchAt (c :: tl) with
    | some r => rw [hm] at H; exact absurd H (by simp)
    | none =>
      rw [hm] at H
      cases i with
      | zero => simpa using hm
      | succ i' => rw [List.drop_succ_cons]; exact ih H i'

lemma search_spec_some {cs h d : List Char} (H : patternSearch cs = some (h, d)) :
    ∃ i, SpecMatchAt cs i h d ∧
      ∀ j h2 d2, SpecMatchAt cs j h2 d2 → i ≤ j := by
  obtain ⟨i, hi, hmin⟩ := search_sound H
  obtain ⟨Hh, Hd, post, hdec⟩ := matchAt_sound hi
  have hlen : i < cs.length := by
    by_contra hge
    have : cs.drop i = [] := List.drop_eq_nil_of_le (by omega)
    rw [this] at hdec
    have : domLit ≠ ([] : List Char) := by decide
    simp [domLit] at hdec
  refine ⟨i, ⟨Hh, Hd, cs.take i, post, ?_, ?_⟩, ?_⟩
  · rw [List.length_take]; omega
  · conv_lhs => rw [← List.take_append_drop i cs]
    rw [hdec]
  · intro j h2 d2 ⟨Hh2, Hd2, pre2, post2, hlen2, hdec2⟩
    by_contra hlt
    have hj : j < i := by omega
    have hdropj : cs.drop j = domLit ++ (h2 ++ (statusLit ++ (d2 ++ post2))) := by
      rw [hdec2, ← hlen2, List.drop_left]
    have := hmin j hj
    rw [hdropj, matchAt_complete post2 Hh2 Hd2] at this
    exact absurd this (by simp)

lemma search_spec_none {cs : List Char} (H : patternSearch cs = none) :
    ∀ i h d, ¬ SpecMatchAt cs i h d := by
  intro i h d ⟨Hh, Hd, pre, post, hlen, hdec⟩
  have hdropj : cs.drop i = domLit ++ (h ++ (statusLit ++ (d ++ post))) := by
    rw [hdec, ← hlen, List.drop_left]
  have := search_none H i
  rw [hdropj, matchAt_complete post Hh Hd] at this
  exact absurd this (by simp)

/-! ### Facts about the store operations -/

lemma docMatches_errorDoc (rid sid t : Nat) (m : String) :
    docMatches (errorDoc rid t m) sid = decide (rid = sid) := by
  simp [docMatches, errorDoc, List.lookup]

lemma docMatches_successDoc (rid sid t : Nat) (c : String) :
    docMatches (successDoc rid t c) sid = decide (rid = sid) := by
  simp [docMatches, successDoc, List.lookup]

lemma hasSid_append (coll : List Doc) (d : Doc) (sid : Nat) :
    hasSid (coll ++ [d]) sid = (hasSid coll sid || docMatches d sid) := by
  induction coll with
  | nil =>
    simp only [List.nil_append, hasSid, findOneBySourceId]
    by_cases hd : docMatches d sid = true
    case pos =>
      rw [@List.find?_cons_of_pos Doc (fun x => docMatches x sid) d [] hd]
      simp [hd]
    case neg =>
      rw [@List.find?_cons_of_neg Doc (fun x => docMatches x sid) d [] hd,
        List.find?_nil]
      simp [Bool.eq_false_iff.mpr hd]
  | cons c cs ih =>
    simp only [List.cons_append, hasSid, findOneBySourceId] at *
    by_cases hc : docMatches c sid = true
    case pos =>
      rw [@List.find?_cons_of_pos Doc (fun x => docMatches x sid) c (cs ++ [d]) hc,
        @List.find?_cons_of_pos Doc (fun x => docMatches x sid) c cs hc]
      simp
    case neg =>
      rw [@List.find?_cons_of_neg Doc (fun x => docMatches x sid) c (cs ++ [d]) hc,
        @List.find?_cons_of_neg Doc (fun x => docMatches x sid) c cs hc]
      exact ih

/-! ### Facts about the worker -/

lemma scrape_cases (env : Env) (db : DB) (sid : Nat) (url : String) :
    (∃ m, scrape_and_store_tweet env db sid url =
       ({ status := "error", id := sid, error_message := some m, message := none },
        insertTwitterError db sid m))
    ∨ (∃ c, scrape_and_store_tweet env db sid url =
        ({ status := "success", id := sid, error_message := none, message := none },
         insertTwitter db sid c)) := by
  rcases hps : patternSearch url.data with _ | ⟨user_id, tweet_id⟩
  · refine Or.inl ⟨"Invalid tweet URL format: " ++ url, ?_⟩
    unfold scrape_and_store_tweet
    rw [hps]
  · rcases hf : env.fetch user_id tweet_id with c | e | e
    · refine Or.inr ⟨c, ?_⟩
      unfold scrape_and_store_tweet
      simp only [hps, hf]
    · refine Or.inl ⟨"Nitter scraping failed (AttributeError): " ++ e, ?_⟩
      unfold scrape_and_store_tweet
      simp only [hps, hf]
    · refine Or.inl ⟨"An unexpected error occurred: " ++ e, ?_⟩
      unfold scrape_and_store_tweet
      simp only [hps, hf]

/-! ### Facts about one iteration of the batch loop -/

lemma step_skip (env env2 : Env) (s : LoopState) (r : RawRecord)
    (H : hasSid s.db.twitter r._id = true ∨ hasSid s.db.twitterErrors r._id = true) :
    (stepRecord env s r).db = s.db
    ∧ stepRecord env s r = stepRecord env2 s r
    ∧ (stepRecord env s r).processed_count = s.processed_count
    ∧ (stepRecord env s r).error_count = s.error_count
    ∧ (stepRecord env s r).skipped_count = s.skipped_count + 1
    ∧ ∃ dtl, (stepRecord env s r).results = s.results ++ [dtl]
        ∧ (dtl.status = "already_processed" ∨ dtl.status = "already_in_error") := by
  unfold stepRecord
  cases hT : findOneBySourceId s.db.twitter r._id with
  | some doc => exact ⟨rfl, rfl, rfl, rfl, rfl, _, rfl, Or.inl rfl⟩
  | none =>
    cases hE : findOneBySourceId s.db.twitterErrors r._id with
    | some doc => exact ⟨rfl, rfl, rfl, rfl, rfl, _, rfl, Or.inr rfl⟩
    | none =>
      exfalso
      rcases H with H | H
      · rw [hasSid, hT] at H; exact absurd H (by simp)
      · rw [hasSid, hE] at H; exact absurd H (by simp)

lemma step_pending (env : Env) (s : LoopState) (r : RawRecord)
    (hT : findOneBySourceId s.db.twitter r._id = none)
    (hE : findOneBySourceId s.db.twitterErrors r._id = none) :
    stepRecord env s r =
      { db := (scrape_and_store_tweet env s.db r._id r.message).2,
        processed_count :=
          if (scrape_and_store_tweet env s.db r._id r.message).1.status = "success"
          then s.processed_count + 1 else s.processed_count,
        error_count :=
          if (scrape_and_store_tweet env s.db r._id r.message).1.status = "success"
          then s.error_count else s.error_count + 1,
        skipped_count := s.skipped_count,
        results := s.results ++ [(scrape_and_store_tweet env s.db r._id r.message).1] } := by
  unfold stepRecord
  rw [hT, hE]

lemma step_delta (env : Env) (s : LoopState) (r : RawRecord) :
    ((stepRecord env s r).processed_count + (stepRecord env s r).error_count
        + (stepRecord env s r).skipped_count
      = s.processed_count + s.error_count + s.skipped_count + 1)
    ∧ ∃ dtl, (stepRecord env s r).results = s.results ++ [dtl] ∧ dtl.id = r._id := by
  unfold stepRecord
  cases hT : findOneBySourceId s.db.twitter r._id with
  | some doc =>
    refine ⟨?_, _, rfl, rfl⟩
    show s.processed_count + s.error_count + (s.skipped_count + 1)
      = s.processed_count + s.error_count + s.skipped_count + 1
    omega
  | none =>
    cases hE : findOneBySourceId s.db.twitterErrors r._id with
    | some doc =>
      refine ⟨?_, _, rfl, rfl⟩
      show s.processed_count + s.error_count + (s.skipped_count + 1)
        = s.processed_count + s.error_count + s.skipped_count + 1
      omega
    | none =>
      rcases scrape_cases env s.db r._id r.message with ⟨m, hs⟩ | ⟨c, hs⟩
      · rw [hs]
        refine ⟨?_, _, rfl, rfl⟩
        show s.processed_count + (s.error_count + 1) + s.skipped_count
          = s.processed_count + s.error_count + s.skipped_count + 1
        omega
      · rw [hs]
        refine ⟨?_, _, rfl, rfl⟩
        show (s.processed_count + 1) + s.error_count + s.skipped_count
          = s.processed_count + s.error_count + s.skipped_count + 1
        omega

lemma step_db_mono (env : Env) (s : LoopState) (r : RawRecord) (sid : Nat) :
    (hasSid s.db.twitter sid = true →
      hasSid (stepRecord env s r).db.twitter sid = true)
    ∧ (hasSid s.db.twitterErrors sid = true →
      hasSid (stepRecord env s r).db.twitterErrors sid = true)
    ∧ (stepRecord env s r).db.rawdata = s.db.rawdata := by
  cases hT : findOneBySourceId s.db.twitter r._id with
  | some doc =>
    rw [(step_skip env env s r (Or.inl (by simp [hasSid, hT]))).1]
    exact ⟨id, id, rfl⟩
  | none =>
    cases hE : findOneBySourceId s.db.twitterErrors r._id with
    | some doc =>
      rw [(step_skip env env s r (Or.inr (by simp [hasSid, hE]))).1]
      exact ⟨id, id, rfl⟩
    | none =>
      rw [step_pending env s r hT hE]
      rcases scrape_cases env s.db r._id r.message with ⟨m, hs⟩ | ⟨c, hs⟩
      · rw [hs]
        refine ⟨fun hA => hA, fun hB => ?_, rfl⟩
        show hasSid (s.db.twitterErrors ++ [errorDoc r._id s.db.clock m]) sid = true
        rw [hasSid_append, hB, Bool.true_or]
      · rw [hs]
        refine ⟨fun hA => ?_, fun hB => hB, rfl⟩
        show hasSid (s.db.twitter ++ [successDoc r._id s.db.clock c]) sid = true
        rw [hasSid_append, hA, Bool.true_or]

lemma step_covers (env : Env) (s : LoopState) (r : RawRecord) :
    hasSid (stepRecord env s r).db.twitter r._id = true
    ∨ hasSid (stepRecord env s r).db.twitterErrors r._id = true := by
  cases hT : findOneBySourceId s.db.twitter r._id with
  | some doc =>
    left
    rw [(step_skip env env s r (Or.inl (by simp [hasSid, hT]))).1]
    simp [hasSid, hT]
  | none =>
    cases hE : findOneBySourceId s.db.twitterErrors r._id with
    | some doc =>
      right
      rw [(step_skip env env s r (Or.inr (by simp [hasSid, hE]))).1]
      simp [hasSid, hE]
    | none =>
      rw [step_pending env s r hT hE]
      rcases scrape_cases env s.db r._id r.message with ⟨m, hs⟩ | ⟨c, hs⟩
      · right
        rw [hs]
        show hasSid (s.db.twitterErrors ++ [errorDoc r._id s.db.clock m]) r._id = true
        rw [hasSid_append, docMatches_errorDoc]
        simp
      · left
        rw [hs]
        show hasSid (s.db.twitter ++ [successDoc r._id s.db.clock c]) r._id = true
        rw [hasSid_append, docMatches_successDoc]
        simp

lemma step_exclusive (env : Env) (s : LoopState) (r : RawRecord)
    (H : Exclusive s.db) : Exclusive (stepRecord env s r).db := by
  cases hT : findOneBySourceId s.db.twitter r._id with
  | some doc =>
    rw [(step_skip env env s r (Or.inl (by simp [hasSid, hT]))).1]
    exact H
  | none =>
    cases hE : findOneBySourceId s.db.twitterErrors r._id with
    | some doc =>
      rw [(step_skip env env s r (Or.inr (by simp [hasSid, hE]))).1]
      exact H
    | none =>
      rw [step_pending env s r hT hE]
      rcases scrape_cases env s.db r._id r.message with ⟨m, hs⟩ | ⟨c, hs⟩
      · rw [hs]
        intro sid hAB
        obtain ⟨hA, hB⟩ := hAB
        replace hB : hasSid (s.db.twitterErrors ++ [errorDoc r._id s.db.clock m]) sid = true := hB
        replace hA : hasSid s.db.twitter sid = true := hA
        rw [hasSid_append] at hB
        rcases (Bool.or_eq_true _ _).mp hB with hB2 | hB2
        · exact H sid ⟨hA, hB2⟩
        · rw [docMatches_errorDoc] at hB2
          have heq : r._id = sid := of_decide_eq_true hB2
          rw [← heq, hasSid, hT] at hA
          exact absurd hA (by simp)
      · rw [hs]
        intro sid hAB
        obtain ⟨hA, hB⟩ := hAB
        replace hA : hasSid (s.db.twitter ++ [successDoc r._id s.db.clock c]) sid = true := hA
        replace hB : hasSid s.db.twitterErrors sid = true := hB
        rw [hasSid_append] at hA
        rcases (Bool.or_eq_true _ _).mp hA with hA2 | hA2
        · exact H sid ⟨hA2, hB⟩
        · rw [docMatches_successDoc] at hA2
          have heq : r._id = sid := of_decide_eq_true hA2
          rw [← heq, hasSid, hE] at hB
          exact absurd hB (by simp)

/-! ### Facts about the whole batch loop -/

lemma fold_exclusive (env : Env) : ∀ (l : List RawRecord) (s : LoopState),
    Exclusive s.db → Exclusive ((l.foldl (stepRecord env) s)).db := by
  intro l
  induction l with
  | nil => exact fun s H => H
  | cons r tl ih =>
    intro s H
    rw [List.foldl_cons]
    exact ih _ (step_exclusive env s r H)

lemma fold_db_mono (env : Env) : ∀ (l : List RawRecord) (s : LoopState) (sid : Nat),
    (hasSid s.db.twitter sid = true →
      hasSid ((l.foldl (stepRecord env) s)).db.twitter sid = true)
    ∧ (hasSid s.db.twitterErrors sid = true →
      hasSid ((l.foldl (stepRecord env) s)).db.twitterErrors sid = true)
    ∧ ((l.foldl (stepRecord env) s)).db.rawdata = s.db.rawdata := by
  intro l
  induction l with
  | nil => exact fun s sid => ⟨id, id, rfl⟩
  | cons r tl ih =>
    intro s sid
    rw [List.foldl_cons]
    exact ⟨fun h => (ih _ sid).1 ((step_db_mono env s r sid).1 h),
           fun h => (ih _ sid).2.1 ((step_db_mono env s r sid).2.1 h),
           ((ih _ sid).2.2).trans (step_db_mono env s r sid).2.2⟩

lemma fold_covers (env : Env) : ∀ (l : List RawRecord) (s : LoopState),
    ∀ r ∈ l, hasSid ((l.foldl (stepRecord env) s)).db.twitter r._id = true
      ∨ hasSid ((l.foldl (stepRecord env) s)).db.twitterErrors r._id = true := by
  intro l
  induction l with
  | nil => intro s r hr; exact absurd hr (by simp)
  | cons x tl ih =>
    intro s r hr
    rw [List.foldl_cons]
    rcases List.mem_cons.mp hr with h | h
    · subst h
      rcases step_covers env s r with hc | hc
      · exact Or.inl ((fold_db_mono env tl _ r._id).1 hc)
      · exact Or.inr ((fold_db_mono env tl _ r._id).2.1 hc)
    · exact ih _ r h

lemma fold_counts (env : Env) : ∀ (l : List RawRecord) (s : LoopState),
    ((l.foldl (stepRecord env) s).processed_count
        + (l.foldl (stepRecord env) s).error_count
        + (l.foldl (stepRecord env) s).skipped_count
      = s.processed_count + s.error_count + s.skipped_count + l.length)
    ∧ (l.foldl (stepRecord env) s).results.map Detail.id
        = s.results.map Detail.id ++ l.map RawRecord._id := by
  intro l
  induction l with
  | nil => intro s; exact ⟨by simp, by simp⟩
  | cons r tl ih =>
    intro s
    rw [List.foldl_cons]
    obtain ⟨h1, dtl, h2, h3⟩ := step_delta env s r
    obtain ⟨ih1, ih2⟩ := ih (stepRecord env s r)
    constructor
    · rw [ih1, List.length_cons]
      omega
    · rw [ih2, h2, List.map_append, List.map_cons, List.map_nil, h3]
      simp

lemma fold_all_skip (env : Env) : ∀ (l : List RawRecord) (s : LoopState),
    (∀ r ∈ l, hasSid s.db.twitter r._id = true ∨ hasSid s.db.twitterErrors r._id = true) →
    (l.foldl (stepRecord env) s).processed_count = s.processed_count
    ∧ (l.foldl (stepRecord env) s).error_count = s.error_count
    ∧ (l.foldl (stepRecord env) s).skipped_count = s.skipped_count + l.length
    ∧ (l.foldl (stepRecord env) s).results.all skipStatus = s.results.all skipStatus := by
  intro l
  induction l with
  | nil => intro s H; exact ⟨rfl, rfl, by simp, rfl⟩
  | cons r tl ih =>
    intro s H
    rw [List.foldl_cons]
    obtain ⟨hdb, _, hp, he, hk, dtl, hres, hstat⟩ :=
      step_skip env env s r (H r (by simp))
    have Htl : ∀ x ∈ tl, hasSid (stepRecord env s r).db.twitter x._id = true
        ∨ hasSid (stepRecord env s r).db.twitterErrors x._id = true := by
      intro x hx
      rw [hdb]
      exact H x (by simp [hx])
    obtain ⟨i1, i2, i3, i4⟩ := ih (stepRecord env s r) Htl
    refine ⟨by rw [i1, hp], by rw [i2, he], ?_, ?_⟩
    · rw [i3, hk, List.length_cons]
      omega
    · rw [i4, hres, List.all_append]
      have hsk : skipStatus dtl = true := by
        rcases hstat with h | h <;> simp [skipStatus, h]
      simp [hsk, List.all_cons]

lemma endpoint_eq (env : Env) (db : DB) :
    process_tweets_endpoint env db =
      ({ message := "Tweet processing completed.",
         processed_count := (finalState env db).processed_count,
         error_count := (finalState env db).error_count,
         skipped_count := (finalState env db).skipped_count,
         total_attempted_or_skipped := (finalState env db).processed_count
           + (finalState env db).error_count + (finalState env db).skipped_count,
         details := (finalState env db).results }, (finalState env db).db) := rfl

lemma insertTwitterError_len (db : DB) (sid : Nat) (m : String) :
    (insertTwitterError db sid m).twitter.length
      + (insertTwitterError db sid m).twitterErrors.length
    = db.twitter.length + db.twitterErrors.length + 1 := by
  show db.twitter.length + (db.twitterErrors ++ [errorDoc sid db.clock m]).length = _
  rw [List.length_append]
  simp only [List.length_cons, List.length_nil]
  omega

lemma insertTwitter_len (db : DB) (sid : Nat) (c : String) :
    (insertTwitter db sid c).twitter.length
      + (insertTwitter db sid c).twitterErrors.length
    = db.twitter.length + db.twitterErrors.length + 1 := by
  show (db.twitter ++ [successDoc sid db.clock c]).length + db.twitterErrors.length = _
  rw [List.length_append]
  simp only [List.length_cons, List.length_nil]
  omega

lemma cons_append_ne {a b : Char} {l1 l2 m1 m2 : List Char} (hab : a ≠ b) :
    (a :: l1) ++ m1 ≠ (b :: l2) ++ m2 := by
  intro hEq
  rw [List.cons_append, List.cons_append] at hEq
  injection hEq with h1 _
  exact hab h1

/-- Claim C1: starting from a store in which no source_id has both a
success outcome and a failure outcome, one run of the batch endpoint
leaves the store in a state in which still no source_id has records in
both outcome collections. -/
theorem claim_C1 (env : Env) (db : DB) (H : Exclusive db) :
    Exclusive (process_tweets_endpoint env db).2 := by
  rw [endpoint_eq]
  exact fold_exclusive env _ (initLoopState db) H

/-- Witness for C1 at a concrete environment and store. -/
theorem claim_C1_witness :
    Exclusive (process_tweets_endpoint ⟨fun _ _ => FetchResult.ok ("c")⟩
      ⟨[⟨1, "twitter.com/a/status/5"⟩], [], [], 0⟩).2 :=
  claim_C1 ⟨fun _ _ => FetchResult.ok ("c")⟩ ⟨[⟨1, "twitter.com/a/status/5"⟩], [], [], 0⟩
    (fun sid h => absurd h.1 (by simp [hasSid, findOneBySourceId]))

/-- Claim C2: each worker invocation appends exactly one outcome document
across the two outcome collections: one success document when the fetch
returns content, one failure document when extraction finds no match or
the fetch raises; never zero documents and never two. -/
theorem claim_C2 (env : Env) (db : DB) (sid : Nat) (url : String) :
    ((∃ h i c, patternSearch url.data = some (h, i)
        ∧ env.fetch h i = FetchResult.ok c
        ∧ (scrape_and_store_tweet env db sid url).2.twitter
            = db.twitter ++ [successDoc sid db.clock c]
        ∧ (scrape_and_store_tweet env db sid url).2.twitterErrors = db.twitterErrors)
     ∨ (∃ m, (scrape_and_store_tweet env db sid url).2.twitterErrors
            = db.twitterErrors ++ [errorDoc sid db.clock m]
        ∧ (scrape_and_store_tweet env db sid url).2.twitter = db.twitter
        ∧ (patternSearch url.data = none
           ∨ ∃ h i, patternSearch url.data = some (h, i)
              ∧ ((∃ e, env.fetch h i = FetchResult.attrError e)
                 ∨ (∃ e, env.fetch h i = FetchResult.otherError e)))))
    ∧ (scrape_and_store_tweet env db sid url).2.twitter.length
        + (scrape_and_store_tweet env db sid url).2.twitterErrors.length
      = db.twitter.length + db.twitterErrors.length + 1 := by
  rcases hps : patternSearch url.data with _ | ⟨user_id, tweet_id⟩
  case none =>
    have heq : (scrape_and_store_tweet env db sid url).2
        = insertTwitterError db sid ("Invalid tweet URL format: " ++ url) := by
      unfold scrape_and_store_tweet
      rw [hps]
    rw [heq]
    exact ⟨Or.inr ⟨_, rfl, rfl, Or.inl rfl⟩, insertTwitterError_len db sid _⟩
  case some =>
    rcases hf : env.fetch user_id tweet_id with c | e | e
    · have heq : (scrape_and_store_tweet env db sid url).2 = insertTwitter db sid c := by
        unfold scrape_and_store_tweet
        simp only [hps, hf]
      rw [heq]
      exact ⟨Or.inl ⟨user_id, tweet_id, c, rfl, hf, rfl, rfl⟩, insertTwitter_len db sid c⟩
    · have heq : (scrape_and_store_tweet env db sid url).2
          = insertTwitterError db sid ("Nitter scraping failed (AttributeError): " ++ e) := by
        unfold scrape_and_store_tweet
        simp only [hps, hf]
      rw [heq]
      exact ⟨Or.inr ⟨_, rfl, rfl, Or.inr ⟨user_id, tweet_id, rfl, Or.inl ⟨e, hf⟩⟩⟩,
        insertTwitterError_len db sid _⟩
    · have heq : (scrape_and_store_tweet env db sid url).2
          = insertTwitterError db sid ("An unexpected error occurred: " ++ e) := by
        unfold scrape_and_store_tweet
        simp only [hps, hf]
      rw [heq]
      exact ⟨Or.inr ⟨_, rfl, rfl, Or.inr ⟨user_id, tweet_id, rfl, Or.inr ⟨e, hf⟩⟩⟩,
        insertTwitterError_len db sid _⟩

/-- Claim C3: running the batch twice in succession with no new source
records yields a second-run summary with processed 0 and errored 0, and
every visited record counted as skipped. -/
theorem claim_C3 (env env2 : Env) (db : DB) :
    (process_tweets_endpoint env2 (process_tweets_endpoint env db).2).1.processed_count = 0
    ∧ (process_tweets_endpoint env2 (process_tweets_endpoint env db).2).1.error_count = 0
    ∧ (process_tweets_endpoint env2 (process_tweets_endpoint env db).2).1.skipped_count
        = (process_tweets_endpoint env2 (process_tweets_endpoint env db).2).1.details.length
    ∧ (process_tweets_endpoint env2 (process_tweets_endpoint env db).2).1.skipped_count
        = (db.rawdata.filter fun r => preFilter r.message.data).length
    ∧ (process_tweets_endpoint env2 (process_tweets_endpoint env db).2).1.details.all
        skipStatus = true := by
  have hraw : (process_tweets_endpoint env db).2.rawdata = db.rawdata := by
    rw [endpoint_eq]
    exact (fold_db_mono env _ (initLoopState db) 0).2.2
  have hfs : finalState env2 (process_tweets_endpoint env db).2
      = (db.rawdata.filter fun r => preFilter r.message.data).foldl
          (stepRecord env2) (initLoopState (process_tweets_endpoint env db).2) := by
    unfold finalState
    rw [hraw]
  have hcov : ∀ r ∈ (db.rawdata.filter fun r => preFilter r.message.data),
      hasSid (initLoopState (process_tweets_endpoint env db).2).db.twitter r._id = true
      ∨ hasSid (initLoopState (process_tweets_endpoint env db).2).db.twitterErrors
          r._id = true := by
    intro r hr
    show hasSid (process_tweets_endpoint env db).2.twitter r._id = true
      ∨ hasSid (process_tweets_endpoint env db).2.twitterErrors r._id = true
    rw [endpoint_eq]
    exact fold_covers env _ (initLoopState db) r hr
  obtain ⟨a1, a2, a3, a4⟩ := fold_all_skip env2 _ _ hcov
  obtain ⟨b1, b2⟩ := fold_counts env2
    (db.rawdata.filter fun r => preFilter r.message.data)
    (initLoopState (process_tweets_endpoint env db).2)
  have hlen : ((db.rawdata.filter fun r => preFilter r.message.data).foldl
      (stepRecord env2) (initLoopState (process_tweets_endpoint env db).2)).results.length
      = (db.rawdata.filter fun r => preFilter r.message.data).length := by
    have hc := congrArg List.length b2
    simpa [initLoopState] using hc
  refine ⟨?_, ?_, ?_, ?_, ?_⟩
  · show (finalState env2 (process_tweets_endpoint env db).2).processed_count = 0
    rw [hfs]
    exact a1
  · show (finalState env2 (process_tweets_endpoint env db).2).error_count = 0
    rw [hfs]
    exact a2
  · show (finalState env2 (process_tweets_endpoint env db).2).skipped_count
      = (finalState env2 (process_tweets_endpoint env db).2).results.length
    rw [hfs]
    rw [hlen, a3]
    show 0 + _ = _
    omega
  · show (finalState env2 (process_tweets_endpoint env db).2).skipped_count
      = (db.rawdata.filter fun r => preFilter r.message.data).length
    rw [hfs, a3]
    show 0 + _ = _
    omega
  · show (finalState env2 (process_tweets_endpoint env db).2).results.all skipStatus = true
    rw [hfs]
    exact a4

/-- Claim C4: the dedup classifier checks the success collection before the
failure collection: a record whose source_id has a success outcome is
skipped as already processed with the "already successfully processed"
note, regardless of its message and of any failure outcome; one with only
a failure outcome is skipped with the distinct "previously failed" note. -/
theorem claim_C4 (env : Env) (s : LoopState) (r : RawRecord) :
    ((∃ doc, findOneBySourceId s.db.twitter r._id = some doc) →
      stepRecord env s r =
        { s with skipped_count := s.skipped_count + 1,
                 results := s.results ++
                   [{ status := "already_processed", id := r._id,
                      message := some ("Tweet already successfully processed.") }] })
    ∧ (findOneBySourceId s.db.twitter r._id = none →
       (∃ doc, findOneBySourceId s.db.twitterErrors r._id = some doc) →
      stepRecord env s r =
        { s with skipped_count := s.skipped_count + 1,
                 results := s.results ++
                   [{ status := "already_in_error", id := r._id,
                      message := some ("Tweet previously failed to process.") }] })
    ∧ ("Tweet already successfully processed." ≠ "Tweet previously failed to process.") := by
  refine ⟨?_, ?_, by decide⟩
  · rintro ⟨doc, hT⟩
    unfold stepRecord
    rw [hT]
  · rintro hT ⟨doc, hE⟩
    unfold stepRecord
    rw [hT, hE]

/-- Witness for C4: a source_id present in both outcome collections is
skipped as already processed; one present only in the failure collection
is skipped as previously failed. -/
theorem claim_C4_witness :
    (stepRecord ⟨fun _ _ => FetchResult.otherError ("x")⟩
        { db := ⟨[], [successDoc 1 0 "c"], [errorDoc 1 0 "m"], 1⟩,
          processed_count := 0, error_count := 0, skipped_count := 0, results := [] }
        ⟨1, "no url"⟩ =
      { db := ⟨[], [successDoc 1 0 "c"], [errorDoc 1 0 "m"], 1⟩,
        processed_count := 0, error_count := 0, skipped_count := 1,
        results := [{ status := "already_processed", id := 1,
                      message := some ("Tweet already successfully processed.") }] })
    ∧ (stepRecord ⟨fun _ _ => FetchResult.otherError ("x")⟩
        { db := ⟨[], [], [errorDoc 2 0 "m"], 1⟩,
          processed_count := 0, error_count := 0, skipped_count := 0, results := [] }
        ⟨2, "no url"⟩ =
      { db := ⟨[], [], [errorDoc 2 0 "m"], 1⟩,
        processed_count := 0, error_count := 0, skipped_count := 1,
        results := [{ status := "already_in_error", id := 2,
                      message := some ("Tweet previously failed to process.") }] }) :=
  ⟨(claim_C4 _ _ _).1 ⟨_, rfl⟩, (claim_C4 _ _ _).2.1 rfl ⟨_, rfl⟩⟩

/-- Claim C5: the extractor returns the (handle, id) group pair of the
first substring matching the pattern (handle a nonempty run of non-slash
characters, id nonempty digits), and a no-match result otherwise; the
three documented examples hold, and on the no-match input the worker
records an "Invalid tweet URL format" failure outcome. -/
theorem claim_C5 :
    (∀ cs h d : List Char, patternSearch cs = some (h, d) →
       ∃ i, SpecMatchAt cs i h d ∧ ∀ j h2 d2, SpecMatchAt cs j h2 d2 → i ≤ j)
    ∧ (∀ cs : List Char, patternSearch cs = none →
       ∀ i h d, ¬ SpecMatchAt cs i h d)
    ∧ patternSearch ("https://twitter.com/alice/status/12345").data
        = some (("alice").data, ("12345").data)
    ∧ patternSearch ("check out this link http://twitter.com/bob_2/status/99").data
        = some (("bob_2").data, ("99").data)
    ∧ patternSearch ("no url here").data = none
    ∧ (∀ env db sid,
        (scrape_and_store_tweet env db sid ("no url here")).2.twitterErrors
          = db.twitterErrors
            ++ [errorDoc sid db.clock ("Invalid tweet URL format: no url here")]) := by
  refine ⟨fun cs h d H => search_spec_some H,
          fun cs H => search_spec_none H, by decide, by decide, by decide, ?_⟩
  intro env db sid
  have heq : (scrape_and_store_tweet env db sid ("no url here")).2
      = insertTwitterError db sid ("Invalid tweet URL format: " ++ "no url here") := by
    unfold scrape_and_store_tweet
    rw [show patternSearch ("no url here").data = none by decide]
  rw [heq]
  rfl

/-- Witness for C5: the leftmost-match characterisation and the no-match
characterisation applied at concrete inputs. -/
theorem claim_C5_witness :
    (∃ i, SpecMatchAt ("x twitter.com/a/status/5").data i ("a").data ("5").data
      ∧ ∀ j h2 d2, SpecMatchAt ("x twitter.com/a/status/5").data j h2 d2 → i ≤ j)
    ∧ (∀ i h d, ¬ SpecMatchAt ("nope").data i h d)
    ∧ (scrape_and_store_tweet ⟨fun _ _ => FetchResult.ok ("c")⟩ ⟨[], [], [], 0⟩ 3
        "no url here").2.twitterErrors
      = [] ++ [errorDoc 3 0 "Invalid tweet URL format: no url here"] :=
  ⟨claim_C5.1 _ _ _ (by decide), claim_C5.2.1 _ (by decide),
   claim_C5.2.2.2.2.2 ⟨fun _ _ => FetchResult.ok ("c")⟩ ⟨[], [], [], 0⟩ 3⟩

/-- Claim C6: for every completed batch run the summary satisfies
processed + errored + skipped = total = number of detail entries, with one
entry per visited source record, in iteration order. -/
theorem claim_C6 (env : Env) (db : DB) :
    (process_tweets_endpoint env db).1.processed_count
        + (process_tweets_endpoint env db).1.error_count
        + (process_tweets_endpoint env db).1.skipped_count
      = (process_tweets_endpoint env db).1.total_attempted_or_skipped
    ∧ (process_tweets_endpoint env db).1.total_attempted_or_skipped
      = (process_tweets_endpoint env db).1.details.length
    ∧ (process_tweets_endpoint env db).1.details.map Detail.id
      = ((db.rawdata.filter fun r => preFilter r.message.data).map RawRecord._id) := by
  have h1 : (finalState env db).processed_count + (finalState env db).error_count
      + (finalState env db).skipped_count
      = (initLoopState db).processed_count + (initLoopState db).error_count
        + (initLoopState db).skipped_count
        + (db.rawdata.filter fun r => preFilter r.message.data).length :=
    (fold_counts env _ _).1
  have h2 : (finalState env db).results.map Detail.id
      = (initLoopState db).results.map Detail.id
        ++ (db.rawdata.filter fun r => preFilter r.message.data).map RawRecord._id :=
    (fold_counts env _ _).2
  have h2b : (finalState env db).results.map Detail.id
      = (db.rawdata.filter fun r => preFilter r.message.data).map RawRecord._id := by
    simpa using h2
  have hlen : (finalState env db).results.length
      = (db.rawdata.filter fun r => preFilter r.message.data).length := by
    have hc := congrArg List.length h2b
    simpa using hc
  have h1b : (finalState env db).processed_count + (finalState env db).error_count
      + (finalState env db).skipped_count
      = (db.rawdata.filter fun r => preFilter r.message.data).length := by
    have h0 : (initLoopState db).processed_count + (initLoopState db).error_count
        + (initLoopState db).skipped_count = 0 := rfl
    omega
  refine ⟨rfl, ?_, h2b⟩
  show (finalState env db).processed_count + (finalState env db).error_count
      + (finalState env db).skipped_count = (finalState env db).results.length
  omega

/-- Counterexample to claim C7 as stated: on a successful fetch the
document written to the success collection has keys source_id,
created_time, timestamp and tweet; no field named content exists. -/
theorem claim_C7_counterexample :
    (scrape_and_store_tweet ⟨fun _ _ => FetchResult.ok ("the content")⟩ ⟨[], [], [], 0⟩ 1
        "twitter.com/a/status/5").2.twitter = [successDoc 1 0 "the content"]
    ∧ (successDoc 1 0 "the content").map Prod.fst
        = ["source_id", "created_time", "timestamp", "tweet"]
    ∧ ("content" ∉ (successDoc 1 0 "the content").map Prod.fst) :=
  ⟨by decide, by decide, by decide⟩

/-- Claim C7 amended: every success write appends exactly the document
with fields source_id, created_time, timestamp and tweet, where tweet
holds the content returned by the fetch collaborator. -/
theorem claim_C7_amended (env : Env) (db : DB) (sid : Nat) (url : String)
    (h i : List Char) (c : String)
    (hps : patternSearch url.data = some (h, i))
    (hf : env.fetch h i = FetchResult.ok c) :
    (scrape_and_store_tweet env db sid url).2.twitter
      = db.twitter ++ [successDoc sid db.clock c]
    ∧ (successDoc sid db.clock c).map Prod.fst
      = ["source_id", "created_time", "timestamp", "tweet"]
    ∧ List.lookup ("tweet") (successDoc sid db.clock c) = some (BsonVal.str c) := by
  have heq : (scrape_and_store_tweet env db sid url).2 = insertTwitter db sid c := by
    unfold scrape_and_store_tweet
    simp only [hps, hf]
  rw [heq]
  exact ⟨rfl, rfl, rfl⟩

/-- Witness for the amended C7 at a concrete fetch. -/
theorem claim_C7_witness :
    (scrape_and_store_tweet ⟨fun _ _ => FetchResult.ok ("tw")⟩ ⟨[], [], [], 0⟩ 2
        "twitter.com/b/status/7").2.twitter = [] ++ [successDoc 2 0 "tw"]
    ∧ (successDoc 2 0 "tw").map Prod.fst
      = ["source_id", "created_time", "timestamp", "tweet"]
    ∧ List.lookup ("tweet") (successDoc 2 0 "tw") = some (BsonVal.str ("tw")) :=
  claim_C7_amended ⟨fun _ _ => FetchResult.ok ("tw")⟩ ⟨[], [], [], 0⟩ 2
    "twitter.com/b/status/7" ("b").data ("7").data ("tw") (by decide) rfl

/-- Claim C8 names a code bug: the Mongo pre-filter of the batch driver uses the
regex "twitter.com" with an unescaped dot, so a record whose message
lacks the literal substring "twitter.com" (here "twitter_com/a/status/1")
is nevertheless visited by the batch driver, against the claim and the
comment in the code saying it selects messages containing "twitter.com". -/
theorem claim_C8_code_bug :
    containsTwitterComCI ("twitter_com/a/status/1").data = false
    ∧ preFilter ("twitter_com/a/status/1").data = true
    ∧ (process_tweets_endpoint ⟨fun _ _ => FetchResult.ok ("c")⟩
        ⟨[⟨7, "twitter_com/a/status/1"⟩], [], [], 0⟩).1.details.map Detail.id = [7] :=
  ⟨by decide, by decide, by decide⟩

/-- Claim C9: a fetch raising the content-unavailable (AttributeError)
class is recorded as a failure outcome whose error text always differs
from the text recorded for a generic fetch failure, and in both cases the
worker returns the error outcome. -/
theorem claim_C9 (env : Env) (db : DB) (sid : Nat) (url : String)
    (h i : List Char) (hps : patternSearch url.data = some (h, i)) :
    (∀ e, env.fetch h i = FetchResult.attrError e →
       (scrape_and_store_tweet env db sid url).2.twitterErrors
         = db.twitterErrors
           ++ [errorDoc sid db.clock ("Nitter scraping failed (AttributeError): " ++ e)]
       ∧ (scrape_and_store_tweet env db sid url).1.status = "error")
    ∧ (∀ e, env.fetch h i = FetchResult.otherError e →
       (scrape_and_store_tweet env db sid url).2.twitterErrors
         = db.twitterErrors
           ++ [errorDoc sid db.clock ("An unexpected error occurred: " ++ e)]
       ∧ (scrape_and_store_tweet env db sid url).1.status = "error")
    ∧ (∀ e e2 : String, ("Nitter scraping failed (AttributeError): " ++ e)
        ≠ ("An unexpected error occurred: " ++ e2)) := by
  refine ⟨?_, ?_, ?_⟩
  · intro e hf
    have heq : scrape_and_store_tweet env db sid url
        = ({ status := "error", id := sid,
             error_message := some ("Nitter scraping failed (AttributeError): " ++ e) },
           insertTwitterError db sid ("Nitter scraping failed (AttributeError): " ++ e)) := by
      unfold scrape_and_store_tweet
      simp only [hps, hf]
    rw [heq]
    exact ⟨rfl, rfl⟩
  · intro e hf
    have heq : scrape_and_store_tweet env db sid url
        = ({ status := "error", id := sid,
             error_message := some ("An unexpected error occurred: " ++ e) },
           insertTwitterError db sid ("An unexpected error occurred: " ++ e)) := by
      unfold scrape_and_store_tweet
      simp only [hps, hf]
    rw [heq]
    exact ⟨rfl, rfl⟩
  · intro e e2 hcontra
    have hd := congrArg String.data hcontra
    rw [String.data_append, String.data_append] at hd
    have hN : ("Nitter scraping failed (AttributeError): ").data
        = 'N' :: ("itter scraping failed (AttributeError): ").data := rfl
    have hA : ("An unexpected error occurred: ").data
        = 'A' :: ("n unexpected error occurred: ").data := rfl
    rw [hN, hA] at hd
    exact cons_append_ne (by decide) hd

/-- Witness for C9 at a concrete fetch collaborator. -/
theorem claim_C9_witness :
    ((scrape_and_store_tweet ⟨fun _ _ => FetchResult.attrError ("gone")⟩ ⟨[], [], [], 0⟩ 4
        "twitter.com/a/status/5").2.twitterErrors
      = [] ++ [errorDoc 4 0 ("Nitter scraping failed (AttributeError): " ++ "gone")]
    ∧ (scrape_and_store_tweet ⟨fun _ _ => FetchResult.attrError ("gone")⟩ ⟨[], [], [], 0⟩ 4
        "twitter.com/a/status/5").1.status = "error")
    ∧ (∀ e e2 : String, ("Nitter scraping failed (AttributeError): " ++ e)
        ≠ ("An unexpected error occurred: " ++ e2)) :=
  ⟨(claim_C9 ⟨fun _ _ => FetchResult.attrError ("gone")⟩ ⟨[], [], [], 0⟩ 4
      "twitter.com/a/status/5" ("a").data ("5").data (by decide)).1 "gone" rfl,
   (claim_C9 ⟨fun _ _ => FetchResult.attrError ("gone")⟩ ⟨[], [], [], 0⟩ 4
      "twitter.com/a/status/5" ("a").data ("5").data (by decide)).2.2⟩

/-- Claim C10: a record classified as already succeeded or already failed
produces no write at all: the store is left unchanged by that iteration,
and the outcome of the iteration does not depend on the fetch collaborator. -/
theorem claim_C10 (env env2 : Env) (s : LoopState) (r : RawRecord)
    (H : hasSid s.db.twitter r._id = true ∨ hasSid s.db.twitterErrors r._id = true) :
    (stepRecord env s r).db = s.db ∧ stepRecord env s r = stepRecord env2 s r :=
  ⟨(step_skip env env2 s r H).1, (step_skip env env2 s r H).2.1⟩

/-- Witness for C10: a pre-seeded success outcome makes the step a pure
skip under two different fetch collaborators. -/
theorem claim_C10_witness :
    (stepRecord ⟨fun _ _ => FetchResult.ok ("c")⟩
        { db := ⟨[], [successDoc 1 0 "c"], [], 1⟩, processed_count := 0,
          error_count := 0, skipped_count := 0, results := [] } ⟨1, "m"⟩).db
      = ({ db := ⟨[], [successDoc 1 0 "c"], [], 1⟩, processed_count := 0,
             error_count := 0, skipped_count := 0, results := [] } : LoopState).db
    ∧ stepRecord ⟨fun _ _ => FetchResult.ok ("c")⟩
        { db := ⟨[], [successDoc 1 0 "c"], [], 1⟩, processed_count := 0,
          error_count := 0, skipped_count := 0, results := [] } ⟨1, "m"⟩
      = stepRecord ⟨fun _ _ => FetchResult.otherError ("x")⟩
        { db := ⟨[], [successDoc 1 0 "c"], [], 1⟩, processed_count := 0,
          error_count := 0, skipped_count := 0, results := [] } ⟨1, "m"⟩ :=
  claim_C10 ⟨fun _ _ => FetchResult.ok ("c")⟩ ⟨fun _ _ => FetchResult.otherError ("x")⟩
    { db := ⟨[], [successDoc 1 0 "c"], [], 1⟩, processed_count := 0,
      error_count := 0, skipped_count := 0, results := [] } ⟨1, "m"⟩
    (Or.inl (by decide))
